import Mathlib

/-!
Verification of the wellhead telemetry system (simulator, Modbus gateway relay,
and database ingestion pipeline) against its natural-language specification.

The Python sources are shallowly embedded: JSON frames become an inductive
`Json` type, Python runtime exceptions become `PyErr`, fallible code returns
`Except PyErr _`, and the 16-bit register codec works on natural numbers
reduced mod 2^16 / 2^32.  The `struct.pack` conversion from a Python double to
an IEEE-754 binary32 bit pattern is an external library collaborator; where a
float value is encoded, its bit pattern is produced by an arbitrary function
`fb : ℚ → Nat` over which the theorems are universally quantified (no proved
statement depends on a particular bit pattern).
-/

namespace WellSim

/-- A parsed JSON value, the shape of one simulator frame element. -/
inductive Json where
  | null
  | jbool (b : Bool)
  | num (q : ℚ)
  | str (s : String)
  | arr (elts : List Json)
  | obj (fields : List (String × Json))
deriving Repr

/-- The Python exception classes that the embedded code can raise. -/
inductive PyErr where
  | jsonDecodeError
  | keyError
  | typeError
  | valueError
  | indexError
  | attributeError
  | structError
deriving Repr, DecidableEq

/-- Python dict lookup semantics: with duplicate keys the last binding wins
(as `json.loads` keeps the last occurrence of a repeated key). -/
def lastLookup {α : Type} (fields : List (String × α)) (k : String) : Option α :=
  List.lookup k fields.reverse

/-- `o[k]` on a Json value: KeyError when the key is absent from a dict,
TypeError when `o` is not a dict (Python: subscripting with a str key). -/
def pyIndex (o : Json) (k : String) : Except PyErr Json :=
  match o with
  | Json.obj fields =>
      match lastLookup fields k with
      | some v => Except.ok v
      | none => Except.error PyErr.keyError
  | _ => Except.error PyErr.typeError

/-- `o.get(k)` on a Json value: `None` (here `none`) when the key is absent,
AttributeError when `o` is not a dict. -/
def pyGet (o : Json) (k : String) : Except PyErr (Option Json) :=
  match o with
  | Json.obj fields => Except.ok (lastLookup fields k)
  | _ => Except.error PyErr.attributeError

/-- Digits-only parse of a nonempty character list, used by `int(...)`. -/
def parseNatDigits : List Char → Option Nat
  | [] => none
  | cs =>
      if cs.all Char.isDigit then
        some (cs.foldl (fun n c => n * 10 + (c.toNat - 48)) 0)
      else
        none

/-- Python `int(s)` on a string: optional sign followed by decimal digits,
ValueError otherwise. -/
def pyIntOfString (s : String) : Except PyErr Int :=
  match s.data with
  | '-' :: cs =>
      match parseNatDigits cs with
      | some n => Except.ok (-(n : Int))
      | none => Except.error PyErr.valueError
  | '+' :: cs =>
      match parseNatDigits cs with
      | some n => Except.ok ((n : Int))
      | none => Except.error PyErr.valueError
  | cs =>
      match parseNatDigits cs with
      | some n => Except.ok ((n : Int))
      | none => Except.error PyErr.valueError

/-- Decimal-fraction parse (`digits`, `digits.digits`, `.digits`, `digits.`)
of a character list, used by `float(...)` on a string. -/
def parseDecimalChars (cs : List Char) : Option ℚ :=
  match cs.splitOn '.' with
  | [ip] => (parseNatDigits ip).map (fun n => (n : ℚ))
  | [ip, fp] =>
      if ip.isEmpty && fp.isEmpty then none
      else
        match parseNatDigits (if ip.isEmpty then ['0'] else ip),
              parseNatDigits (if fp.isEmpty then ['0'] else fp) with
        | some n, some f => some ((n : ℚ) + (f : ℚ) / (10 : ℚ) ^ fp.length)
        | _, _ => none
  | _ => none

/-- Python `float(s)` on a string (decimal forms with optional sign). -/
def pyFloatOfString (s : String) : Except PyErr ℚ :=
  match s.data with
  | '-' :: cs =>
      match parseDecimalChars cs with
      | some q => Except.ok (-q)
      | none => Except.error PyErr.valueError
  | '+' :: cs =>
      match parseDecimalChars cs with
      | some q => Except.ok q
      | none => Except.error PyErr.valueError
  | cs =>
      match parseDecimalChars cs with
      | some q => Except.ok q
      | none => Except.error PyErr.valueError

/-- Python `float(value)` on a JSON value. -/
def pyFloat (v : Json) : Except PyErr ℚ :=
  match v with
  | Json.num q => Except.ok q
  | Json.jbool b => Except.ok (if b then 1 else 0)
  | Json.str s => pyFloatOfString s
  | _ => Except.error PyErr.typeError

/-- Truncation toward zero, Python `int(float)`. -/
def truncToInt (q : ℚ) : Int :=
  if 0 ≤ q then Int.floor q else -Int.floor (-q)

/-- Python `int(value)` on a JSON value. -/
def pyInt (v : Json) : Except PyErr Int :=
  match v with
  | Json.num q => Except.ok (truncToInt q)
  | Json.jbool b => Except.ok (if b then 1 else 0)
  | Json.str s => pyIntOfString s
  | _ => Except.error PyErr.typeError

/-- Iterating a JSON value in Python: a list yields its elements, a string its
characters, a dict its keys; numbers, booleans and `None` raise TypeError. -/
def pyIterList (v : Json) : Except PyErr (List Json) :=
  match v with
  | Json.arr elts => Except.ok elts
  | Json.str s => Except.ok (s.data.map (fun c => Json.str (String.mk [c])))
  | Json.obj fields => Except.ok (fields.map (fun kv => Json.str kv.fst))
  | _ => Except.error PyErr.typeError

/-! ## Register codec

Both gateway variants build payloads with
`BinaryPayloadBuilder(byteorder=Endian.Big, wordorder=Endian.Little)` and the
ingestion side decodes with `BinaryPayloadDecoder.fromRegisters` under the same
settings.  At the 16-bit register level this word order puts the low-order
16 bits of a 32-bit value in the first register and the high-order 16 bits in
the second. -/

/-- Split a 32-bit value into its two 16-bit registers, low word first
(wordorder `Little`, as in both gateways). -/
def toRegisters32 (bits : Nat) : List Nat :=
  [bits % 65536, bits / 65536 % 65536]

/-- Reassemble a 32-bit value from two registers, low word first (the
ingestion decoder's setting). Any other register-list shape yields 0. -/
def fromRegisters32 (regs : List Nat) : Nat :=
  match regs with
  | [lo, hi] => lo % 65536 + hi % 65536 * 65536
  | _ => 0

/-- Two's-complement reading of a 32-bit pattern, `decode_32bit_int`. -/
def toSigned32 (bits : Nat) : Int :=
  if bits < 2 ^ 31 then (bits : Int) else (bits : Int) - 2 ^ 32

/-- The 32-bit two's-complement pattern of an integer. -/
def int32Bits (v : Int) : Nat :=
  (v % (2 ^ 32 : Int)).toNat

/-- `builder.add_32bit_int(v)`: struct.error when `v` is outside the signed
32-bit range, otherwise the two registers of its pattern. -/
def add32bitInt (v : Int) : Except PyErr (List Nat) :=
  if -(2 ^ 31) ≤ v ∧ v < 2 ^ 31 then
    Except.ok (toRegisters32 (int32Bits v))
  else
    Except.error PyErr.structError

/-- A typed value as held on either side of the codec.  Float values are
represented by their IEEE-754 binary32 bit pattern, which is exactly what the
two registers carry. -/
inductive TypedValue where
  | floatVal (bits : Nat)
  | intVal (v : Int)
  | boolVal (b : Bool)
deriving Repr, DecidableEq

/-- The parameter-type string under which a value is configured. -/
def kindOf : TypedValue → String
  | TypedValue.floatVal _ => "float"
  | TypedValue.intVal _ => "integer"
  | TypedValue.boolVal _ => "boolean"

/-- Encoding of a typed value into its two registers, as performed by
`data_updater_thread` (floats via `add_32bit_float`, integers and booleans via
`add_32bit_int`; a boolean is first coerced by `int(...)` to 0 or 1). -/
def encodeTyped : TypedValue → List Nat
  | TypedValue.floatVal bits => toRegisters32 bits
  | TypedValue.intVal v => toRegisters32 (int32Bits v)
  | TypedValue.boolVal b => toRegisters32 (int32Bits (if b then 1 else 0))

/-- Decoding of two registers under a parameter-type string, as performed by
the ingestion loop of `database_ingestion.py` (lines 98-105): floats via
`decode_32bit_float`, integers via `decode_32bit_int`, booleans via
`bool(decode_32bit_int(...))`; other type strings decode nothing. -/
def decodeTyped (ptype : String) (regs : List Nat) : Option TypedValue :=
  if ptype = "float" then
    some (TypedValue.floatVal (fromRegisters32 regs))
  else if ptype = "integer" then
    some (TypedValue.intVal (toSigned32 (fromRegisters32 regs)))
  else if ptype = "boolean" then
    some (TypedValue.boolVal (toSigned32 (fromRegisters32 regs) != 0))
  else
    none

/-- Validity of a value for its encoding kind: a float pattern fits in 32
bits, an integer fits the signed 32-bit range, booleans are always valid. -/
def validTyped : TypedValue → Prop
  | TypedValue.floatVal bits => bits < 2 ^ 32
  | TypedValue.intVal v => -(2 ^ 31) ≤ v ∧ v < 2 ^ 31
  | TypedValue.boolVal _ => True

theorem fromRegisters32_toRegisters32 (bits : Nat) (h : bits < 2 ^ 32) :
    fromRegisters32 (toRegisters32 bits) = bits := by
  simp only [toRegisters32, fromRegisters32]
  omega

theorem toSigned32_int32Bits (v : Int) (h1 : -(2 ^ 31) ≤ v) (h2 : v < 2 ^ 31) :
    toSigned32 (int32Bits v) = v := by
  simp only [toSigned32, int32Bits]
  split <;> omega

/-- Claim C1: for every supported encoding kind (float32, int32, bool32) and
every valid value of that kind, decoding the two 16-bit register words
produced by encoding the value returns the value — the float's 32-bit pattern
bit-for-bit, integers and booleans exactly. -/
theorem codec_roundtrip (v : TypedValue) (h : validTyped v) :
    decodeTyped (kindOf v) (encodeTyped v) = some v := by
  cases v with
  | floatVal bits =>
      simp only [validTyped] at h
      simp [decodeTyped, kindOf, encodeTyped, fromRegisters32_toRegisters32 bits h]
  | intVal v =>
      simp only [validTyped] at h
      have hbits : int32Bits v < 2 ^ 32 := by
        simp only [int32Bits]
        omega
      simp only [decodeTyped, kindOf, encodeTyped, if_neg (by decide : ¬("integer" = "float")),
        if_pos rfl, if_true, fromRegisters32_toRegisters32 _ hbits, Option.some.injEq,
        TypedValue.intVal.injEq]
      exact toSigned32_int32Bits v h.1 h.2
  | boolVal b =>
      cases b <;> decide

/-- Witness for C1 at concrete values of each kind. -/
theorem codec_roundtrip_witness :
    (validTyped (TypedValue.floatVal 1150963712) ∧
      decodeTyped "float" (encodeTyped (TypedValue.floatVal 1150963712)) =
        some (TypedValue.floatVal 1150963712)) ∧
    (validTyped (TypedValue.intVal (-5)) ∧
      decodeTyped "integer" (encodeTyped (TypedValue.intVal (-5))) =
        some (TypedValue.intVal (-5))) ∧
    (validTyped (TypedValue.boolVal true) ∧
      decodeTyped "boolean" (encodeTyped (TypedValue.boolVal true)) =
        some (TypedValue.boolVal true)) :=
  ⟨⟨by show (1150963712 : Nat) < 2 ^ 32; norm_num,
    codec_roundtrip (TypedValue.floatVal 1150963712)
      (by show (1150963712 : Nat) < 2 ^ 32; norm_num)⟩,
   ⟨by show -(2 ^ 31) ≤ (-5 : Int) ∧ (-5 : Int) < 2 ^ 31; norm_num,
    codec_roundtrip (TypedValue.intVal (-5))
      (by show -(2 ^ 31) ≤ (-5 : Int) ∧ (-5 : Int) < 2 ^ 31; norm_num)⟩,
   ⟨trivial, codec_roundtrip (TypedValue.boolVal true) trivial⟩⟩

/-! ## Telemetry source value generation (wellhead_simulator.py, run_simulation)

`random.uniform(a, b)` is modelled as `a + u * (b - a)` for a uniform draw
`u ∈ [0, 1]`, and `random.random()` as a uniform draw `r ∈ [0, 1)`; the code
takes the excursion branch exactly when `r < 0.1`. -/

/-- `random.uniform(a, b)` at parameter `u`. -/
def pyUniform (a b u : ℚ) : ℚ := a + u * (b - a)

/-- The raw per-parameter value drawn by `run_simulation` (before float
rounding, integer truncation, or the boolean coin flip): with `r < 0.1` it is
`random.uniform(param["min"] * 0.8, param["max"] * 1.2)`, otherwise
`random.uniform(param["min"], param["max"])`. -/
def genRawValue (pmin pmax r u : ℚ) : ℚ :=
  if r < 1 / 10 then pyUniform (pmin * (8 / 10)) (pmax * (12 / 10)) u
  else pyUniform pmin pmax u

/-- Modelled from the spec (for comparison only): the lower endpoint of the
expanded excursion range the spec claims, `min − 0.2·(max−min)`. -/
def specExcursionLow (pmin pmax : ℚ) : ℚ := pmin - (2 / 10) * (pmax - pmin)

/-- Modelled from the spec (for comparison only): the upper endpoint of the
expanded excursion range the spec claims, `max + 0.2·(max−min)`. -/
def specExcursionHigh (pmin pmax : ℚ) : ℚ := pmax + (2 / 10) * (pmax - pmin)

/-- Counterexample to claim C3: for the Flowline Temperature bounds
`min = -40`, `max = 200`, an excursion draw at `u = 0` yields the code's lower
endpoint `-40 * 0.8 = -32`, not the spec's claimed lower endpoint
`-40 - 0.2 * 240 = -88`, so the excursion branch does not sample uniformly
from the spec's expanded range. -/
theorem excursion_range_mismatch :
    genRawValue (-40) 200 0 0 = -32 ∧
    pyUniform (specExcursionLow (-40) 200) (specExcursionHigh (-40) 200) 0 = -88 ∧
    (-32 : ℚ) ≠ -88 := by
  refine ⟨?_, ?_, by norm_num⟩ <;>
    norm_num [genRawValue, pyUniform, specExcursionLow, specExcursionHigh]

/-- Claim C3 as amended: with probability 0.10 (`random.random() < 0.1`) the
raw value is sampled uniformly from `[0.8·min, 1.2·max]`, and otherwise
uniformly from `[min, max]` — whenever the respective interval is nonempty,
every draw lies inside it. -/
theorem excursion_sampling_ranges (pmin pmax r u : ℚ)
    (hu0 : 0 ≤ u) (hu1 : u ≤ 1) :
    (r < 1 / 10 → pmin * (8 / 10) ≤ pmax * (12 / 10) →
      pmin * (8 / 10) ≤ genRawValue pmin pmax r u ∧
        genRawValue pmin pmax r u ≤ pmax * (12 / 10)) ∧
    (1 / 10 ≤ r → pmin ≤ pmax →
      pmin ≤ genRawValue pmin pmax r u ∧ genRawValue pmin pmax r u ≤ pmax) := by
  constructor
  · intro hr hle
    simp only [genRawValue, pyUniform, if_pos hr]
    constructor
    · nlinarith
    · nlinarith
  · intro hr hle
    simp only [genRawValue, pyUniform, if_neg (not_lt.mpr hr)]
    constructor
    · nlinarith
    · nlinarith

/-- Witness for the amended C3 at concrete inputs: an excursion draw
(`r = 0.05`) and a normal draw (`r = 0.5`) at `u = 1/2` over `[-40, 200]`. -/
theorem excursion_sampling_ranges_witness :
    ((-40 : ℚ) * (8 / 10) ≤ genRawValue (-40) 200 (5 / 100) (1 / 2) ∧
      genRawValue (-40) 200 (5 / 100) (1 / 2) ≤ 200 * (12 / 10)) ∧
    ((-40 : ℚ) ≤ genRawValue (-40) 200 (1 / 2) (1 / 2) ∧
      genRawValue (-40) 200 (1 / 2) (1 / 2) ≤ 200) :=
  ⟨(excursion_sampling_ranges (-40) 200 (5 / 100) (1 / 2)
      (by norm_num) (by norm_num)).1 (by norm_num) (by norm_num),
   (excursion_sampling_ranges (-40) 200 (1 / 2) (1 / 2)
      (by norm_num) (by norm_num)).2 (by norm_num) (by norm_num)⟩

/-! ## Register map construction (src/src/modbus_gateway.py, build_register_map)

The database rows are the input (fetching them is external I/O); the function
under scrutiny is the dictionary-building loop.  Nested Python dicts are
modelled as association lists with in-place update semantics. -/

/-- One row of the active-mapping query:
`(wh.wellhead_id, pt.code, dpm.modbus_register, pt.data_type)`. -/
structure MappingRow where
  wellhead_id : String
  param_code : String
  modbus_register : Int
  data_type : String
deriving Repr, DecidableEq

/-- The per-parameter entry stored in the register map:
`{"register": register, "type": data_type}`. -/
structure MappingInfo where
  register : Int
  dtype : String
deriving Repr, DecidableEq

/-- Dict insertion/update: replace the binding of `k` in place if present,
append it otherwise. -/
def dictUpd {α : Type} (l : List (String × α)) (k : String) (v : α) :
    List (String × α) :=
  match l with
  | [] => [(k, v)]
  | (k0, v0) :: rest =>
      if k0 == k then (k, v) :: rest else (k0, v0) :: dictUpd rest k v

/-- Insert one query row into the nested map, as the loop body of
`build_register_map` does (creating the wellhead's inner dict on first
sight). -/
def insertMappingRow (m : List (String × List (String × MappingInfo)))
    (row : MappingRow) : List (String × List (String × MappingInfo)) :=
  match lastLookup m row.wellhead_id with
  | none =>
      dictUpd m row.wellhead_id
        [(row.param_code, ⟨row.modbus_register, row.data_type⟩)]
  | some inner =>
      dictUpd m row.wellhead_id
        (dictUpd inner row.param_code ⟨row.modbus_register, row.data_type⟩)

/-- `build_register_map` of src/src/modbus_gateway.py: fold the fetched rows
into a nested `wellhead_id → param_code → {register, type}` map.  The function
is total — the source has no failure path once the rows are in hand (and in
particular defines no `EmptyMapError`). -/
def build_register_map (rows : List MappingRow) :
    List (String × List (String × MappingInfo)) :=
  rows.foldl insertMappingRow []

/-- Counterexample to claim C4: when the metadata store returns zero active
mappings, `build_register_map` does not fail with `EmptyMapError` (no such
error exists in the code); it returns the empty map, and the gateway then
proceeds to start its updater thread and server. -/
theorem empty_mappings_build_succeeds : build_register_map [] = [] := rfl

theorem mem_dictUpd {α : Type} (l : List (String × α)) (k k' : String) (v : α)
    (e : α) (h : (k', e) ∈ dictUpd l k v) :
    k' = k ∨ ∃ e0, (k', e0) ∈ l := by
  induction l with
  | nil =>
      simp only [dictUpd, List.mem_singleton] at h
      exact Or.inl (congrArg Prod.fst h)
  | cons hd tl ih =>
      obtain ⟨k0, v0⟩ := hd
      simp only [dictUpd] at h
      by_cases hk : (k0 == k) = true
      · rw [if_pos hk] at h
        rcases List.mem_cons.mp h with h1 | h1
        · exact Or.inl (congrArg Prod.fst h1)
        · exact Or.inr ⟨e, List.mem_cons_of_mem _ h1⟩
      · rw [if_neg hk] at h
        rcases List.mem_cons.mp h with h1 | h1
        · exact Or.inr ⟨v0, by
            rw [show k' = k0 from congrArg Prod.fst h1]
            exact List.mem_cons_self _ _⟩
        · rcases ih h1 with h2 | ⟨e0, h3⟩
          · exact Or.inl h2
          · exact Or.inr ⟨e0, List.mem_cons_of_mem _ h3⟩

theorem mem_insertMappingRow (m : List (String × List (String × MappingInfo)))
    (row : MappingRow) (wh : String) (entry : List (String × MappingInfo))
    (h : (wh, entry) ∈ insertMappingRow m row) :
    wh = row.wellhead_id ∨ ∃ e0, (wh, e0) ∈ m := by
  simp only [insertMappingRow] at h
  rcases hl : lastLookup m row.wellhead_id with _ | inner <;> rw [hl] at h
  · exact mem_dictUpd m row.wellhead_id wh _ entry h
  · exact mem_dictUpd m row.wellhead_id wh _ entry h

theorem mem_foldl_insertMappingRow (rows : List MappingRow)
    (m : List (String × List (String × MappingInfo))) (wh : String)
    (entry : List (String × MappingInfo))
    (h : (wh, entry) ∈ rows.foldl insertMappingRow m) :
    (∃ row, row ∈ rows ∧ row.wellhead_id = wh) ∨ ∃ e0, (wh, e0) ∈ m := by
  induction rows generalizing m with
  | nil => exact Or.inr ⟨entry, h⟩
  | cons r rs ih =>
      simp only [List.foldl_cons] at h
      rcases ih (insertMappingRow m r) h with h1 | ⟨e0, h2⟩
      · rcases h1 with ⟨row, hmem, hwh⟩
        exact Or.inl ⟨row, List.mem_cons_of_mem _ hmem, hwh⟩
      · rcases mem_insertMappingRow m r wh e0 h2 with h3 | ⟨e1, h4⟩
        · exact Or.inl ⟨r, List.mem_cons_self _ _, h3.symm⟩
        · exact Or.inr ⟨e1, h4⟩

/-- Claim C4 as amended: with zero active mappings `build_register_map`
succeeds and returns the empty map (there is no `EmptyMapError` and the
process is not stopped); in general every wellhead key of the built map comes
from some fetched row. -/
theorem register_map_keys_from_rows (rows : List MappingRow) :
    (rows = [] → build_register_map rows = []) ∧
    (∀ wh entry, (wh, entry) ∈ build_register_map rows →
      ∃ row, row ∈ rows ∧ row.wellhead_id = wh) := by
  constructor
  · intro h
    rw [h]
    rfl
  · intro wh entry h
    rcases mem_foldl_insertMappingRow rows [] wh entry h with h1 | ⟨e0, h2⟩
    · exact h1
    · cases h2

/-- Witness for the amended C4: the empty row set gives the empty map, and in
a one-row map the sole wellhead key traces back to that row. -/
theorem register_map_keys_from_rows_witness :
    build_register_map [] = [] ∧
    (∃ row, row ∈ [MappingRow.mk "WH-001" "THP" 0 "float"] ∧
      row.wellhead_id = "WH-001") :=
  ⟨(register_map_keys_from_rows []).1 rfl,
   (register_map_keys_from_rows [MappingRow.mk "WH-001" "THP" 0 "float"]).2
     "WH-001" [("THP", ⟨0, "float"⟩)] (by simp [build_register_map,
       insertMappingRow, lastLookup, dictUpd])⟩

/-! ## Per-parameter encoding in the v2 gateway
(src/src/modbus_gateway.py, data_updater_thread lines 79-87)

For each `(param_code, value)` with a mapping entry, a fresh
`BinaryPayloadBuilder` is filled according to the mapped type and
`builder.to_registers()` is written at the mapped address.  `fb` stands for
the external `struct` double → binary32 conversion. -/

/-- The payload produced for one parameter: two registers for a float, two
for an integer/boolean (error if `int(value)` or `float(value)` raises or the
integer overflows 32 bits), and an empty payload — not an error — for any
other type string, since neither branch of the dispatch adds to the
builder. -/
def encodeValue (fb : ℚ → Nat) (param_type : String) (value : Json) :
    Except PyErr (List Nat) :=
  if param_type = "float" then
    (pyFloat value).map (fun q => toRegisters32 (fb q % 2 ^ 32))
  else if param_type = "integer" ∨ param_type = "boolean" then
    (pyInt value).bind add32bitInt
  else
    Except.ok []

/-- Counterexample to claim C5: encoding a value whose mapped type is the
unsupported string "string" does not fail with `UnsupportedKindError` (no
such error exists in the code); it succeeds with an empty payload. -/
theorem unknown_kind_encodes_empty :
    encodeValue (fun _ => 0) "string" (Json.num 5) = Except.ok [] := rfl

/-- Claim C5 as amended: encoding a value for any kind other than the three
supported ones ("float", "integer", "boolean") silently yields an empty
payload — no registers are written and no error is raised. -/
theorem unknown_kind_silently_skipped (fb : ℚ → Nat) (t : String) (v : Json)
    (h1 : t ≠ "float") (h2 : t ≠ "integer") (h3 : t ≠ "boolean") :
    encodeValue fb t v = Except.ok [] := by
  simp only [encodeValue, if_neg h1]
  rw [if_neg]
  intro hc
  rcases hc with hc | hc
  · exact h2 hc
  · exact h3 hc

/-- Witness for the amended C5 at the concrete kind "string". -/
theorem unknown_kind_silently_skipped_witness :
    encodeValue (fun _ => 1) "string" Json.null = Except.ok [] :=
  unknown_kind_silently_skipped (fun _ => 1) "string" Json.null
    (by decide) (by decide) (by decide)

/-! ## Polling and ingestion pipeline (database_ingestion.py, main, inner loop)

One poll cycle: capture `current_timestamp = datetime.utcnow()` once, then for
each wellhead index read its register block (a Modbus error logs and skips
that wellhead), decode the block parameter by parameter, collect one record
per successful read, and insert the batch if it is non-empty.  Wall-clock
capture is modelled by passing the clock value `now`; the Modbus read results
are the input list `reads` (network I/O is external). -/

/-- One entry of parameters.json: a parameter name and its type string. -/
structure ParamDef where
  name : String
  ptype : String
deriving Repr, DecidableEq

/-- `p['name'].replace(' ', '_').lower()`, the SQL column of a parameter
(character-wise: spaces become underscores, letters are lowered). -/
def sqlCol (n : String) : String :=
  String.mk (n.data.map (fun c => if c = ' ' then '_' else c.toLower))

/-- The column list built from the parameter config (line 47). -/
def colNames (cfg : List ParamDef) : List String :=
  cfg.map (fun p => sqlCol p.name)

/-- A Python datetime: `datetime.utcnow()` yields a NAIVE value
(`tzinfo is None`), so `tzAware` is false for it. -/
structure PyDatetime where
  clock : ℚ
  tzAware : Bool
deriving Repr, DecidableEq

/-- `datetime.utcnow()` at wall-clock `now`: non-null but naive. -/
def utcnow (now : ℚ) : PyDatetime := ⟨now, false⟩

/-- The three supported type strings of the decode dispatch. -/
def supportedType (t : String) : Bool :=
  t == "float" || t == "integer" || t == "boolean"

/-- The typed value decoded from one consumed register pair (lines 98-105):
a float via `decode_32bit_float`, an integer via `decode_32bit_int`, a
boolean via `bool(decode_32bit_int(...))`.  Only called on supported types. -/
def decodeOneVal (t : String) (r0 r1 : Nat) : TypedValue :=
  if t = "float" then TypedValue.floatVal (fromRegisters32 [r0, r1])
  else if t = "integer" then TypedValue.intVal (toSigned32 (fromRegisters32 [r0, r1]))
  else TypedValue.boolVal (toSigned32 (fromRegisters32 [r0, r1]) != 0)

/-- The `decoded_data` dict of one wellhead: each supported parameter
consumes exactly two registers in config order (every branch of the source's
dispatch consumes one 32-bit quantity); an unsupported type consumes nothing
and stores nothing; running out of registers is the decoder's struct error. -/
def decodeValues : List ParamDef → List Nat → Except PyErr (List (String × TypedValue))
  | [], _ => Except.ok []
  | p :: ps, regs =>
      if supportedType p.ptype then
        match regs with
        | r0 :: r1 :: rest =>
            (decodeValues ps rest).map
              (fun l => (sqlCol p.name, decodeOneVal p.ptype r0 r1) :: l)
        | _ => Except.error PyErr.structError
      else
        decodeValues ps regs

/-- `[decoded_data[col] for col in column_names]` (line 108): a missing
column raises KeyError. -/
def recordValues (data : List (String × TypedValue)) :
    List String → Except PyErr (List TypedValue)
  | [] => Except.ok []
  | c :: cs =>
      match lastLookup data c with
      | some v => (recordValues data cs).map (fun vs => v :: vs)
      | none => Except.error PyErr.keyError

/-- One row appended to `records_to_insert`:
`(current_timestamp, wellhead_id) + tuple(record_values)`. -/
structure DbRecord where
  time : PyDatetime
  wellhead_id : String
  vals : List TypedValue
deriving Repr, DecidableEq

/-- `str(n).zfill(3)`. -/
def zfill3 (n : Nat) : String :=
  if n < 10 then "00" ++ toString n
  else if n < 100 then "0" ++ toString n
  else toString n

/-- The wellhead loop of one poll cycle (lines 77-109), with `i` the running
wellhead index: a read error (`result.isError()`) is logged and skipped, a
decode/recording exception propagates out of the cycle. -/
def pollLoop (cfg : List ParamDef) (ts : PyDatetime) :
    Nat → List (Except Unit (List Nat)) → Except PyErr (List DbRecord)
  | _, [] => Except.ok []
  | i, Except.error _ :: rest => pollLoop cfg ts (i + 1) rest
  | i, Except.ok regs :: rest =>
      match decodeValues cfg regs with
      | Except.error e => Except.error e
      | Except.ok data =>
          match recordValues data (colNames cfg) with
          | Except.error e => Except.error e
          | Except.ok vals =>
              match pollLoop cfg ts (i + 1) rest with
              | Except.error e => Except.error e
              | Except.ok recs =>
                  Except.ok (⟨ts, "WH-" ++ zfill3 (i + 1), vals⟩ :: recs)

/-- One poll cycle: the timestamp is captured once, before the wellhead
loop (line 75), and every record of the cycle reuses it. -/
def pollCycle (cfg : List ParamDef) (now : ℚ)
    (reads : List (Except Unit (List Nat))) : Except PyErr (List DbRecord) :=
  pollLoop cfg (utcnow now) 0 reads

/-- What happens at the commit point (lines 112-115): the batch is inserted
whenever it is non-empty — there is no precondition check of any kind on the
records before `execute_batch`. -/
inductive CommitAction where
  | committed (recs : List DbRecord)
  | skippedEmpty
deriving Repr, DecidableEq

/-- `if records_to_insert: execute_batch(...); conn.commit()`. -/
def commitStep (recs : List DbRecord) : CommitAction :=
  if recs.isEmpty then CommitAction.skippedEmpty else CommitAction.committed recs

/-- Whether a Modbus read result is an error (`result.isError()`). -/
def isReadError {α : Type} : Except Unit α → Bool
  | Except.error _ => true
  | Except.ok _ => false

/-- The wellhead ids of the successful reads, in order, starting at index
`i`. -/
def okIdsFrom : Nat → List (Except Unit (List Nat)) → List String
  | _, [] => []
  | i, Except.error _ :: rest => okIdsFrom (i + 1) rest
  | i, Except.ok _ :: rest => ("WH-" ++ zfill3 (i + 1)) :: okIdsFrom (i + 1) rest

/-- The wellhead ids of the successful reads of a cycle. -/
def okWellheadIds (reads : List (Except Unit (List Nat))) : List String :=
  okIdsFrom 0 reads

theorem lookup_isSome_of_mem {α : Type} (l : List (String × α)) (c : String)
    (h : c ∈ l.map Prod.fst) : ∃ v, List.lookup c l = some v := by
  induction l with
  | nil => simp at h
  | cons kv rest ih =>
      obtain ⟨k0, v0⟩ := kv
      by_cases hc : (c == k0) = true
      · exact ⟨v0, by simp [List.lookup, hc]⟩
      · have hmem : c ∈ rest.map Prod.fst := by
          simp only [List.map_cons, List.mem_cons] at h
          rcases h with h | h
          · exact absurd (beq_iff_eq.mpr h) hc
          · exact h
        obtain ⟨v, hv⟩ := ih hmem
        exact ⟨v, by simp [List.lookup, hc, hv]⟩

theorem lastLookup_mem {α : Type} (data : List (String × α)) (c : String)
    (h : c ∈ data.map Prod.fst) : ∃ v, lastLookup data c = some v := by
  have h2 : c ∈ data.reverse.map Prod.fst := by
    rw [List.map_reverse, List.mem_reverse]
    exact h
  exact lookup_isSome_of_mem data.reverse c h2

theorem decodeValues_ok (cfg : List ParamDef)
    (hsup : ∀ p ∈ cfg, supportedType p.ptype = true) :
    ∀ regs : List Nat, regs.length = 2 * cfg.length →
      ∃ data, decodeValues cfg regs = Except.ok data ∧
        data.map Prod.fst = colNames cfg := by
  induction cfg with
  | nil => exact fun regs _ => ⟨[], rfl, rfl⟩
  | cons p ps ih =>
      intro regs hlen
      have hp := hsup p (List.mem_cons_self _ _)
      match regs with
      | [] => simp at hlen
      | [r0] => simp at hlen; omega
      | r0 :: r1 :: rest =>
          have hrest : rest.length = 2 * ps.length := by
            simp only [List.length_cons] at hlen
            omega
          obtain ⟨data, hd, hcols⟩ :=
            ih (fun q hq => hsup q (List.mem_cons_of_mem _ hq)) rest hrest
          refine ⟨(sqlCol p.name, decodeOneVal p.ptype r0 r1) :: data, ?_, ?_⟩
          · simp only [decodeValues, if_pos hp, hd, Except.map]
          · simp only [List.map_cons, hcols, colNames]

theorem recordValues_ok (data : List (String × TypedValue)) :
    ∀ cols : List String, (∀ c ∈ cols, c ∈ data.map Prod.fst) →
      ∃ vals, recordValues data cols = Except.ok vals ∧
        vals.length = cols.length := by
  intro cols
  induction cols with
  | nil => exact fun _ => ⟨[], rfl, rfl⟩
  | cons c cs ih =>
      intro h
      obtain ⟨v, hv⟩ := lastLookup_mem data c (h c (List.mem_cons_self _ _))
      obtain ⟨vals, hvals, hlen⟩ := ih (fun c0 hc0 => h c0 (List.mem_cons_of_mem _ hc0))
      refine ⟨v :: vals, ?_, by simp [hlen]⟩
      simp only [recordValues, hv, hvals, Except.map]

theorem pollLoop_ok (cfg : List ParamDef) (ts : PyDatetime)
    (hsup : ∀ p ∈ cfg, supportedType p.ptype = true) :
    ∀ (reads : List (Except Unit (List Nat))) (i : Nat),
      (∀ regs, Except.ok regs ∈ reads → regs.length = 2 * cfg.length) →
      ∃ recs, pollLoop cfg ts i reads = Except.ok recs ∧
        recs.length + (reads.filter isReadError).length = reads.length ∧
        recs.map DbRecord.wellhead_id = okIdsFrom i reads ∧
        ∀ r ∈ recs, r.time = ts := by
  intro reads
  induction reads with
  | nil => exact fun i _ => ⟨[], rfl, rfl, rfl, fun r hr => absurd hr (List.not_mem_nil r)⟩
  | cons rd rest ih =>
      intro i h
      cases rd with
      | error e =>
          obtain ⟨recs, h1, h2, h3, h4⟩ :=
            ih (i + 1) (fun regs hm => h regs (List.mem_cons_of_mem _ hm))
          exact ⟨recs, by simpa [pollLoop] using h1,
            by simp [List.filter_cons, isReadError]; omega,
            by simp [okIdsFrom, h3], h4⟩
      | ok regs =>
          have hlen := h regs (List.mem_cons_self _ _)
          obtain ⟨data, hdata, hcols⟩ := decodeValues_ok cfg hsup regs hlen
          have hkeys : ∀ c ∈ colNames cfg, c ∈ data.map Prod.fst := by
            intro c hc
            rw [hcols]
            exact hc
          obtain ⟨vals, hvals, _⟩ := recordValues_ok data (colNames cfg) hkeys
          obtain ⟨recs, h1, h2, h3, h4⟩ :=
            ih (i + 1) (fun regs2 hm => h regs2 (List.mem_cons_of_mem _ hm))
          refine ⟨⟨ts, "WH-" ++ zfill3 (i + 1), vals⟩ :: recs, ?_, ?_, ?_, ?_⟩
          · simp only [pollLoop, hdata, hvals, h1]
          · simp [List.filter_cons, isReadError]
            omega
          · simp [okIdsFrom, h3]
          · intro r hr
            rcases List.mem_cons.mp hr with h5 | h5
            · rw [h5]
            · exact h4 r h5

theorem pollLoop_time (cfg : List ParamDef) (ts : PyDatetime) :
    ∀ (reads : List (Except Unit (List Nat))) (i : Nat) (recs : List DbRecord),
      pollLoop cfg ts i reads = Except.ok recs → ∀ r ∈ recs, r.time = ts := by
  intro reads
  induction reads with
  | nil =>
      intro i recs h r hr
      simp only [pollLoop] at h
      cases h
      cases hr
  | cons rd rest ih =>
      intro i recs h r hr
      cases rd with
      | error e => exact ih (i + 1) recs (by simpa [pollLoop] using h) r hr
      | ok regs =>
          simp only [pollLoop] at h
          split at h
          · cases h
          · split at h
            · cases h
            · split at h
              · cases h
              · rename_i recs2 heq
                cases h
                rcases List.mem_cons.mp hr with h5 | h5
                · rw [h5]
                · exact ih (i + 1) recs2 heq r h5

/-- The one-parameter config and one-read inputs of the concrete cycle used
as counterexample input for the timestamp claim. -/
def cfgTHP : List ParamDef := [⟨"THP", "float"⟩]

/-- A single successful read of two zero registers. -/
def readsOne : List (Except Unit (List Nat)) := [Except.ok [0, 0]]

/-- The batch the cycle builds from `readsOne` at clock 0. -/
def recsOne : List DbRecord := [⟨utcnow 0, "WH-001", [TypedValue.floatVal 0]⟩]

/-- Counterexample to claim C2: the cycle timestamp is `datetime.utcnow()`,
a NAIVE datetime (not timezone-aware), and the batch built with it is
committed without any precondition check or exception — no
timestamp-awareness validation exists between record construction and
`execute_batch`. -/
theorem naive_timestamp_committed :
    pollCycle cfgTHP 0 readsOne = Except.ok recsOne ∧
    recsOne.all (fun r => !r.time.tzAware) = true ∧
    commitStep recsOne = CommitAction.committed recsOne :=
  ⟨rfl, rfl, rfl⟩

/-- Claim C2 as amended: every record of a completed poll cycle carries the
single `datetime.utcnow()` capture, which is non-null but naive (not
timezone-aware); no precondition on the timestamps is checked before
writing — any non-empty batch is committed as-is, nothing raises. -/
theorem cycle_timestamps_naive_unchecked (cfg : List ParamDef) (now : ℚ)
    (reads : List (Except Unit (List Nat))) (recs : List DbRecord)
    (h : pollCycle cfg now reads = Except.ok recs) :
    (∀ r ∈ recs, r.time.tzAware = false) ∧
    (recs ≠ [] → commitStep recs = CommitAction.committed recs) := by
  constructor
  · intro r hr
    rw [pollLoop_time cfg (utcnow now) reads 0 recs h r hr]
    rfl
  · intro hne
    rw [commitStep, if_neg]
    simp only [List.isEmpty_iff]
    exact hne

/-- Witness for the amended C2 on the concrete one-wellhead cycle. -/
theorem cycle_timestamps_naive_unchecked_witness :
    (⟨utcnow 0, "WH-001", [TypedValue.floatVal 0]⟩ : DbRecord).time.tzAware = false ∧
    commitStep recsOne = CommitAction.committed recsOne :=
  ⟨(cycle_timestamps_naive_unchecked cfgTHP 0 readsOne recsOne rfl).1
      ⟨utcnow 0, "WH-001", [TypedValue.floatVal 0]⟩ (by simp [recsOne]),
   (cycle_timestamps_naive_unchecked cfgTHP 0 readsOne recsOne rfl).2
      (by simp [recsOne])⟩

/-- Claim C6: in a poll cycle over N read entries where exactly one register
read fails, the failing entry is skipped for that cycle only: the cycle still
completes (no abort), and its batch has exactly the N−1 records of all the
other entries, in order. -/
theorem partial_read_batch_size (cfg : List ParamDef) (now : ℚ)
    (reads : List (Except Unit (List Nat))) (N : Nat)
    (hsup : ∀ p ∈ cfg, supportedType p.ptype = true)
    (hlen : ∀ regs, Except.ok regs ∈ reads → regs.length = 2 * cfg.length)
    (hN : reads.length = N)
    (herr : (reads.filter isReadError).length = 1) :
    ∃ recs, pollCycle cfg now reads = Except.ok recs ∧
      recs.length = N - 1 ∧
      recs.map DbRecord.wellhead_id = okWellheadIds reads := by
  obtain ⟨recs, h1, h2, h3, _⟩ := pollLoop_ok cfg (utcnow now) hsup reads 0 hlen
  exact ⟨recs, h1, by omega, h3⟩

/-- Witness for C6: three reads with the middle one failing yield a
two-record batch naming wellheads 1 and 3. -/
theorem partial_read_batch_size_witness :
    ∃ recs, pollCycle cfgTHP 0 [Except.ok [0, 0], Except.error (), Except.ok [0, 0]] =
        Except.ok recs ∧
      recs.length = 3 - 1 ∧
      recs.map DbRecord.wellhead_id =
        okWellheadIds [Except.ok [0, 0], Except.error (), Except.ok [0, 0]] :=
  partial_read_batch_size cfgTHP 0 [Except.ok [0, 0], Except.error (), Except.ok [0, 0]] 3
    (by decide)
    (by
      intro regs hm
      simp only [List.mem_cons, List.not_mem_nil, or_false] at hm
      rcases hm with hm | hm | hm
      · cases hm; rfl
      · cases hm
      · cases hm; rfl)
    rfl rfl

/-- Claim C7: within one poll cycle the timestamp is captured exactly once —
the cycle is a function of a single clock capture — and every record of the
cycle's batch carries that identical timestamp. -/
theorem batch_shares_cycle_timestamp (cfg : List ParamDef) (now : ℚ)
    (reads : List (Except Unit (List Nat))) (recs : List DbRecord)
    (h : pollCycle cfg now reads = Except.ok recs) :
    ∀ r ∈ recs, r.time = utcnow now :=
  pollLoop_time cfg (utcnow now) reads 0 recs h

/-- Witness for C7 on the concrete one-wellhead cycle. -/
theorem batch_shares_cycle_timestamp_witness :
    (⟨utcnow 0, "WH-001", [TypedValue.floatVal 0]⟩ : DbRecord).time = utcnow 0 :=
  batch_shares_cycle_timestamp cfgTHP 0 readsOne recsOne rfl
    ⟨utcnow 0, "WH-001", [TypedValue.floatVal 0]⟩ (by simp [recsOne])

/-! ## Poll cadence (database_ingestion.py, lines 118-120)

`time_to_wait = POLL_INTERVAL - (time.time() - start_time)`, and `time.sleep`
is called only when `time_to_wait > 0`. -/

/-- The remainder of the poll interval after the measured elapsed time. -/
def timeToWait (pollInterval elapsed : ℚ) : ℚ := pollInterval - elapsed

/-- The sleep actually performed at the end of a poll cycle: `some d` when
`time.sleep(d)` is called, `none` when the next cycle starts immediately. -/
def sleepCall (pollInterval elapsed : ℚ) : Option ℚ :=
  if 0 < timeToWait pollInterval elapsed then some (timeToWait pollInterval elapsed)
  else none

/-- Claim C8: each poll cycle sleeps only the configured interval minus the
measured elapsed processing time; if processing meets or exceeds the interval
no sleep happens at all, and `time.sleep` is never invoked with a
non-positive (in particular never a negative) duration. -/
theorem sleep_remainder_no_negative (pollInterval elapsed : ℚ) :
    (pollInterval ≤ elapsed → sleepCall pollInterval elapsed = none) ∧
    (elapsed < pollInterval →
      sleepCall pollInterval elapsed = some (pollInterval - elapsed)) ∧
    (∀ d : ℚ, sleepCall pollInterval elapsed = some d → 0 < d) := by
  refine ⟨?_, ?_, ?_⟩
  · intro hle
    simp only [sleepCall, timeToWait]
    rw [if_neg (by linarith)]
  · intro hlt
    simp only [sleepCall, timeToWait]
    rw [if_pos (by linarith)]
  · intro d hd
    simp only [sleepCall, timeToWait] at hd
    by_cases hc : 0 < pollInterval - elapsed
    · rw [if_pos hc] at hd
      cases hd
      exact hc
    · rw [if_neg hc] at hd
      cases hd

/-- Witness for C8 at a 30-second interval: a 40-second overrun sleeps not at
all, a 10-second cycle sleeps the 20-second remainder (a positive duration). -/
theorem sleep_remainder_no_negative_witness :
    sleepCall 30 40 = none ∧ sleepCall 30 10 = some 20 ∧ (0 : ℚ) < 20 :=
  ⟨(sleep_remainder_no_negative 30 40).1 (by norm_num),
   by
    have h := (sleep_remainder_no_negative 30 10).2.1 (by norm_num)
    rw [h]
    norm_num,
   by norm_num⟩

/-! ## Gateway relay (src/modbus_gateway.py, data_updater_thread)

Each line read from the simulator subprocess is parsed with `json.loads`
(parse failure = `jsonDecodeError`) and processed inside a try whose except
clause catches exactly `json.JSONDecodeError` and `KeyError`.  For each
wellhead element, the 0-based index is `int(wellhead_id.split('-')[1]) - 1`,
the base address is `index * REGISTERS_PER_WELLHEAD` (50), and one payload is
built over `param_names` in config order and written at the base address. -/

/-- Python `s.split(sep)` segments over the character list (empty segments
are kept, as Python does for an explicit separator). -/
def splitSegs (sep : Char) : List Char → List (List Char)
  | [] => [[]]
  | c :: cs =>
      match splitSegs sep cs with
      | seg :: segs =>
          if c = sep then [] :: seg :: segs else (c :: seg) :: segs
      | [] => if c = sep then [[], []] else [[c]]

/-- Python `s.split(sep)` with a one-character separator. -/
def pySplit (s : String) (sep : Char) : List String :=
  (splitSegs sep s.data).map String.mk

/-- `param_names = [p['name'] for p in parameter_config]`. -/
def paramNames (cfg : List ParamDef) : List String := cfg.map ParamDef.name

/-- `param_types = {p['name']: p['type'] for p in parameter_config}`. -/
def typeDict (cfg : List ParamDef) : List (String × String) :=
  cfg.map (fun p => (p.name, p.ptype))

/-- One iteration of the per-parameter loop (lines 64-77): fetch
`wellhead_data['parameters']` (KeyError if absent), `.get(param_name)`
(absent key gives None), look the type up in `param_types`, skip a missing
value (`continue`), and otherwise append two registers for a
float/integer/boolean type and nothing for any other type.  The returned list
is this parameter's contribution to the builder. -/
def encodeOneParam (fb : ℚ → Nat) (types : List (String × String)) (wh : Json)
    (pname : String) : Except PyErr (List Nat) :=
  match pyIndex wh "parameters" with
  | Except.error e => Except.error e
  | Except.ok paramsVal =>
      match pyGet paramsVal pname with
      | Except.error e => Except.error e
      | Except.ok value =>
          match lastLookup types pname with
          | none => Except.error PyErr.keyError
          | some ptype =>
              match value with
              | none => Except.ok []
              | some Json.null => Except.ok []
              | some v =>
                  if ptype = "float" then
                    (pyFloat v).map (fun q => toRegisters32 (fb q % 2 ^ 32))
                  else if ptype = "integer" ∨ ptype = "boolean" then
                    (pyInt v).bind add32bitInt
                  else
                    Except.ok []

/-- The builder contents over a list of parameter names: concatenation of the
per-parameter contributions, in config order. -/
def payloadOfNames (fb : ℚ → Nat) (types : List (String × String)) (wh : Json) :
    List String → Except PyErr (List Nat)
  | [] => Except.ok []
  | n :: ns =>
      match encodeOneParam fb types wh n with
      | Except.error e => Except.error e
      | Except.ok w =>
          match payloadOfNames fb types wh ns with
          | Except.error e => Except.error e
          | Except.ok rest => Except.ok (w ++ rest)

/-- Whether a parameter contributes registers to its wellhead's payload
(present in the frame, non-null, and of an encodable type). -/
def contributesB (fb : ℚ → Nat) (types : List (String × String)) (wh : Json)
    (n : String) : Bool :=
  match encodeOneParam fb types wh n with
  | Except.ok w => !w.isEmpty
  | Except.error _ => false

/-- One `setValues` call: a start address and the payload words written at
consecutive registers from it. -/
structure RegWrite where
  address : Int
  payload : List Nat
deriving Repr, DecidableEq

/-- Processing of one wellhead element of a frame (lines 53-84):
`wellhead_data['wellhead_id']` (KeyError if missing, and `.split` needs a
string), `int(....split('-')[1]) - 1` (IndexError without a dash, ValueError
on a non-numeric suffix), then the payload built over all configured
parameter names, written at `wellhead_index * 50`. -/
def processWellheadV1 (fb : ℚ → Nat) (cfg : List ParamDef) (wh : Json) :
    Except PyErr RegWrite := do
  let widJson ← pyIndex wh "wellhead_id"
  let widStr ←
    match widJson with
    | Json.str s => Except.ok s
    | _ => Except.error PyErr.attributeError
  let part ←
    match (pySplit widStr '-').get? 1 with
    | some s => Except.ok s
    | none => Except.error PyErr.indexError
  let n ← pyIntOfString part
  let payload ← payloadOfNames fb (typeDict cfg) wh (paramNames cfg)
  Except.ok ⟨(n - 1) * 50, payload⟩

/-- The exception classes named by the relay's except clause:
`except (json.JSONDecodeError, KeyError)`. -/
def caught : PyErr → Bool
  | PyErr.jsonDecodeError => true
  | PyErr.keyError => true
  | _ => false

/-- The try body for one line: parse, iterate the frame, process each
wellhead.  The first raised exception aborts the body. -/
def tryBody (fb : ℚ → Nat) (cfg : List ParamDef) (line : Except PyErr Json) :
    Except PyErr (List RegWrite) := do
  let j ← line
  let whs ← pyIterList j
  whs.mapM (processWellheadV1 fb cfg)

/-- The observable outcome of processing one line in the relay loop. -/
inductive RelayStep where
  | updated (writes : List RegWrite)
  | discarded (e : PyErr)
  | crashed (e : PyErr)
deriving Repr, DecidableEq

/-- One loop iteration: a caught exception is logged and the frame discarded;
any other exception escapes the try and kills the updater thread. -/
def processLine (fb : ℚ → Nat) (cfg : List ParamDef)
    (line : Except PyErr Json) : RelayStep :=
  match tryBody fb cfg line with
  | Except.ok ws => RelayStep.updated ws
  | Except.error e =>
      if caught e then RelayStep.discarded e else RelayStep.crashed e

/-- The relay loop over a stream of lines: it continues past updated and
discarded frames and stops for good at the first crash. -/
def relayRun (fb : ℚ → Nat) (cfg : List ParamDef) :
    List (Except PyErr Json) → List RelayStep
  | [] => []
  | l :: ls =>
      match processLine fb cfg l with
      | RelayStep.crashed e => [RelayStep.crashed e]
      | step => step :: relayRun fb cfg ls

/-- A syntactically valid frame whose wellhead_id has a non-numeric suffix. -/
def badFrame : Except PyErr Json :=
  Except.ok (Json.arr [Json.obj
    [("wellhead_id", Json.str "WH-abc"), ("parameters", Json.obj [])]])

/-- A well-formed frame for the one-parameter config. -/
def goodFrame : Except PyErr Json :=
  Except.ok (Json.arr [Json.obj
    [("wellhead_id", Json.str "WH-001"),
     ("parameters", Json.obj [("THP", Json.num 5)])]])

/-- A frame missing the 'parameters' field (raises KeyError, which is
caught). -/
def noParamsFrame : Except PyErr Json :=
  Except.ok (Json.arr [Json.obj [("wellhead_id", Json.str "WH-001")]])

/-- Counterexample to claim C9: a malformed frame whose wellhead_id is
"WH-abc" raises ValueError at `int('abc')`; ValueError is not in the except
clause `(json.JSONDecodeError, KeyError)`, so the relay thread crashes and
the subsequent well-formed frame is never processed. -/
theorem malformed_wellhead_id_crashes_relay :
    processLine (fun _ => 0) cfgTHP badFrame = RelayStep.crashed PyErr.valueError ∧
    relayRun (fun _ => 0) cfgTHP [badFrame, goodFrame] =
      [RelayStep.crashed PyErr.valueError] :=
  ⟨rfl, rfl⟩

/-- Claim C9 as amended: a frame whose processing raises one of the two
caught exception classes — a JSON parse error or a missing-field KeyError —
is logged and discarded without crashing the relay or blocking subsequent
frames; but only those two classes are caught, so a frame malformed in any
other way (e.g. a wellhead_id with a non-numeric suffix, raising ValueError)
crashes the relay thread. -/
theorem caught_malformed_frame_discarded (fb : ℚ → Nat) (cfg : List ParamDef)
    (line : Except PyErr Json) (rest : List (Except PyErr Json)) (e : PyErr)
    (h : tryBody fb cfg line = Except.error e) (hc : caught e = true) :
    processLine fb cfg line = RelayStep.discarded e ∧
    relayRun fb cfg (line :: rest) =
      RelayStep.discarded e :: relayRun fb cfg rest := by
  have hp : processLine fb cfg line = RelayStep.discarded e := by
    simp [processLine, h, hc]
  refine ⟨hp, ?_⟩
  simp only [relayRun, hp]

/-- Witness for the amended C9: a frame with no 'parameters' field raises
KeyError, is discarded, and the loop continues with the next frame. -/
theorem caught_malformed_frame_discarded_witness :
    processLine (fun _ => 0) cfgTHP noParamsFrame =
      RelayStep.discarded PyErr.keyError ∧
    relayRun (fun _ => 0) cfgTHP [noParamsFrame, goodFrame] =
      RelayStep.discarded PyErr.keyError ::
        relayRun (fun _ => 0) cfgTHP [goodFrame] :=
  caught_malformed_frame_discarded (fun _ => 0) cfgTHP noParamsFrame
    [goodFrame] PyErr.keyError rfl rfl

theorem encodeOneParam_length (fb : ℚ → Nat) (types : List (String × String))
    (wh : Json) (n : String) (w : List Nat)
    (h : encodeOneParam fb types wh n = Except.ok w) :
    w = [] ∨ w.length = 2 := by
  simp only [encodeOneParam] at h
  split at h
  · cases h
  · split at h
    · cases h
    · split at h
      · cases h
      · split at h
        · cases h
          exact Or.inl rfl
        · cases h
          exact Or.inl rfl
        · split at h
          · rcases hq : pyFloat _ with e | q <;> rw [hq] at h
            · cases h
            · cases h
              exact Or.inr rfl
          · split at h
            · rcases hq : pyInt _ with e | m <;> rw [hq] at h
              · cases h
              · simp only [Except.bind, add32bitInt] at h
                split at h
                · cases h
                  exact Or.inr rfl
                · cases h
            · cases h
              exact Or.inl rfl

theorem payloadOfNames_take (fb : ℚ → Nat) (types : List (String × String))
    (wh : Json) :
    ∀ (names : List String) (k : Nat) (pl w : List Nat),
      payloadOfNames fb types wh names = Except.ok pl →
      k < names.length →
      encodeOneParam fb types wh (names.getD k "") = Except.ok w →
      ∃ pre post,
        payloadOfNames fb types wh (names.take k) = Except.ok pre ∧
        pl = pre ++ w ++ post ∧
        pre.length = 2 * ((names.take k).countP (contributesB fb types wh)) := by
  intro names
  induction names with
  | nil =>
      intro k pl w h hk hw
      simp at hk
  | cons n ns ih =>
      intro k pl w h hk hw
      simp only [payloadOfNames] at h
      split at h
      · cases h
      · rename_i w0 hw0
        split at h
        · cases h
        · rename_i rest0 hrest
          cases h
          match k with
          | 0 =>
              have hn : (n :: ns).getD 0 "" = n := rfl
              rw [hn] at hw
              rw [hw] at hw0
              cases hw0
              exact ⟨[], rest0, rfl, rfl, rfl⟩
          | Nat.succ k =>
              have hk2 : k < ns.length := by
                simp only [List.length_cons] at hk
                omega
              have hget : (n :: ns).getD (k + 1) "" = ns.getD k "" := rfl
              rw [hget] at hw
              obtain ⟨pre, post, hpre, hdecomp, hlen⟩ := ih k rest0 w hrest hk2 hw
              refine ⟨w0 ++ pre, post, ?_, ?_, ?_⟩
              · rw [List.take_succ_cons]
                simp only [payloadOfNames, hw0, hpre]
              · rw [hdecomp]
                simp [List.append_assoc]
              · have hcontrib : contributesB fb types wh n = !w0.isEmpty := by
                  simp [contributesB, hw0]
                rw [List.take_succ_cons, List.countP_cons, List.length_append, hlen]
                rcases encodeOneParam_length fb types wh n w0 hw0 with hnil | h2
                · subst hnil
                  simp only [List.isEmpty_nil, Bool.not_true] at hcontrib
                  rw [hcontrib]
                  simp
                · have hne0 : w0.isEmpty = false := by
                    cases w0 with
                    | nil => simp at h2
                    | cons a as => rfl
                  rw [hne0, Bool.not_false] at hcontrib
                  rw [hcontrib]
                  simp only [if_true]
                  omega

/-- Claim C10: in data_updater_thread the register address at which a
wellhead's k-th configured parameter lands equals the base address plus the
length of the payload prefix built from the earlier parameters, which is
2 times the number of earlier configured parameters actually contributing to
the frame; hence the fixed layout base + 2·k (which the ingestion side
decodes against) holds exactly when every earlier parameter contributes, and
a frame omitting an earlier parameter shifts this one at least two registers
down. -/
theorem payload_offset_counts_present_params (fb : ℚ → Nat)
    (types : List (String × String)) (wh : Json) (names : List String)
    (k : Nat) (pl w : List Nat)
    (hb : payloadOfNames fb types wh names = Except.ok pl)
    (hk : k < names.length)
    (hw : encodeOneParam fb types wh (names.getD k "") = Except.ok w)
    (hne : w ≠ []) :
    ∃ pre post,
      pl = pre ++ w ++ post ∧
      payloadOfNames fb types wh (names.take k) = Except.ok pre ∧
      pre.length = 2 * ((names.take k).countP (contributesB fb types wh)) ∧
      ((∀ n ∈ names.take k, contributesB fb types wh n = true) →
        pre.length = 2 * k) ∧
      ((∃ n ∈ names.take k, contributesB fb types wh n = false) →
        pre.length + 2 ≤ 2 * k) := by
  obtain ⟨pre, post, hpre, hdecomp, hlen⟩ :=
    payloadOfNames_take fb types wh names k pl w hb hk hw
  have htk : (names.take k).length = k := by
    rw [List.length_take]
    omega
  refine ⟨pre, post, hdecomp, hpre, hlen, ?_, ?_⟩
  · intro hall
    have hcnt : (names.take k).countP (contributesB fb types wh) =
        (names.take k).length := List.countP_eq_length.mpr hall
    rw [hlen, hcnt, htk]
  · rintro ⟨n, hn, hfalse⟩
    have hle := List.countP_le_length (p := contributesB fb types wh)
      (l := names.take k)
    have hne2 : (names.take k).countP (contributesB fb types wh) ≠
        (names.take k).length := by
      intro heq
      have := List.countP_eq_length.mp heq n hn
      rw [hfalse] at this
      cases this
    omega

/-- The three-parameter type dict of the layout witness. -/
def typesABC : List (String × String) :=
  [("A", "float"), ("B", "float"), ("C", "integer")]

/-- A frame element for the layout witness in which parameter B is absent:
parameter C lands two registers lower than its fixed slot. -/
def whABC : Json :=
  Json.obj [("wellhead_id", Json.str "WH-001"),
    ("parameters", Json.obj [("A", Json.num 1), ("C", Json.num 2)])]

/-- Witness for C10: with B missing from the frame, C (k = 2) sits after a
2-register prefix instead of 4 — shifted down by two registers. -/
theorem payload_offset_counts_present_params_witness :
    ∃ pre post, ([0, 0, 2, 0] : List Nat) = pre ++ [2, 0] ++ post ∧
      payloadOfNames (fun _ => 0) typesABC whABC (["A", "B", "C"].take 2) =
        Except.ok pre ∧
      pre.length = 2 * ((["A", "B", "C"].take 2).countP
        (contributesB (fun _ => 0) typesABC whABC)) ∧
      ((∀ n ∈ ["A", "B", "C"].take 2,
          contributesB (fun _ => 0) typesABC whABC n = true) →
        pre.length = 2 * 2) ∧
      ((∃ n ∈ ["A", "B", "C"].take 2,
          contributesB (fun _ => 0) typesABC whABC n = false) →
        pre.length + 2 ≤ 2 * 2) :=
  payload_offset_counts_present_params (fun _ => 0) typesABC whABC
    ["A", "B", "C"] 2 [0, 0, 2, 0] [2, 0] rfl (by decide) rfl (by decide)

end WellSim
